import Mathlib

/-!
Verification of the recommendation-to-spreadsheet-write pipeline of an
Electron dashboard application.

The development shallowly embeds the pipeline's pure logic and its
orchestration over the external spreadsheet / document / model backends.
External calls are modelled as oracle fields of environment structures:
an `Except String α` value models a backend call that either returns a
value or fails with a message.  All embedded functions are total
computable Lean functions translated from the TypeScript source
(`google-sheets.ts`, the LLM module, and the renderer's `App.tsx`).
-/

namespace Dashboard

/-- Character-code helpers.  `charCode c` is JavaScript's `charCodeAt` for
the characters relevant here (all input is treated code-point-wise). -/
def charCode (c : Char) : Nat := c.toNat

/-- ASCII letter test, the `[A-Z]` class under the `i` flag: codes 65–90
or 97–122. -/
def isAsciiLetter (c : Char) : Bool :=
  (65 ≤ charCode c && charCode c ≤ 90) || (97 ≤ charCode c && charCode c ≤ 122)

/-- ASCII digit test, the `\d` class: codes 48–57. -/
def isDigitChar (c : Char) : Bool :=
  48 ≤ charCode c && charCode c ≤ 57

/-- `toUpperCase` followed by `charCodeAt`, expressed arithmetically on the
original character's code: lower-case codes (≥ 97) drop 32. -/
def upperCode (c : Char) : Nat :=
  if 97 ≤ charCode c then charCode c - 32 else charCode c

/-- Decimal value of a digit string, JavaScript's `parseInt(s, 10)` on an
all-digit string. -/
def digitsVal (l : List Char) : Nat :=
  l.foldl (fun a c => a * 10 + (charCode c - 48)) 0

/-- A parsed 0-indexed cell coordinate.  `row` is an `Int` because the
source subtracts without a lower bound (`"A0"` yields row `-1`). -/
structure CellPos where
  row : Int
  col : Int
deriving DecidableEq, Repr

/-- `parseCellRef` from `google-sheets.ts`: match `^([A-Z]+)(\d+)$/i`,
interpret the letters as a bijective base-26 column (A=1 … Z=26, AA=27)
and the digits as a 1-indexed row, and return both 0-indexed.  The regex
match is embedded as: the maximal letter prefix must be non-empty and the
remainder must be a non-empty digit string. -/
def parseCellRef (range : String) : Option CellPos :=
  let cs := range.data
  let letters := cs.takeWhile isAsciiLetter
  let rest := cs.dropWhile isAsciiLetter
  if letters.isEmpty then none
  else if rest.isEmpty then none
  else if rest.all isDigitChar then
    let col := letters.foldl (fun a c => a * 26 + (upperCode c - 64)) 0
    some ⟨(digitsVal rest : Int) - 1, (col : Int) - 1⟩
  else none

/-- `parseRange` from the renderer (`App.tsx`): same regex and column
computation as `parseCellRef`, but the row is returned relative to the
data rows below the header — spreadsheet row 2 is data row 0, so the row
is the digit value minus 2. -/
def parseRange (range : String) : Option CellPos :=
  let cs := range.data
  let letters := cs.takeWhile isAsciiLetter
  let rest := cs.dropWhile isAsciiLetter
  if letters.isEmpty then none
  else if rest.isEmpty then none
  else if rest.all isDigitChar then
    let col := letters.foldl (fun a c => a * 26 + (upperCode c - 64)) 0
    some ⟨(digitsVal rest : Int) - 2, (col : Int) - 1⟩
  else none

/-- `isCellHighlighted` from the renderer: scan the highlighted-cell key
set for keys of the current tab, parse the range part with `parseRange`,
and report whether any parses to the queried (row, col). -/
def isCellHighlighted (activeTab : String) (highlightedCells : List String)
    (rowIndex colIndex : Int) : Bool :=
  let cellKey := activeTab ++ ":"
  highlightedCells.any (fun key =>
    if cellKey.isPrefixOf key then
      match parseRange (key.drop cellKey.length) with
      | some p => p.row == rowIndex && p.col == colIndex
      | none => false
    else false)

/-! Specification-side description of a valid cell reference, written
from the spec's words for the refinement claims: one or more
(case-insensitive) letters followed by one or more digits, the letters
read as a bijective base-26 numeral with A=1 … Z=26. -/

/-- Spec-side value of one letter: A/a = 1 … Z/z = 26, phrased via the
lower-case code (upper-case codes ≤ 90 gain 32 first). -/
def specLetterVal (c : Char) : Nat :=
  (if charCode c ≤ 90 then charCode c + 32 else charCode c) - 96

/-- Spec-side bijective base-26 value of a letter string. -/
def specLettersVal (l : List Char) : Nat :=
  l.foldl (fun a c => a * 26 + specLetterVal c) 0

/-- Spec-side shape of a valid cell reference: a non-empty letter block
followed by a non-empty digit block, covering the whole string. -/
def ValidCellRef (s : String) : Prop :=
  ∃ L D : List Char, s.data = L ++ D ∧ L ≠ [] ∧ D ≠ [] ∧
    (∀ c ∈ L, isAsciiLetter c) ∧ (∀ c ∈ D, isDigitChar c)

/-- A digit character is never a letter character. -/
theorem isDigitChar_not_isAsciiLetter {c : Char} (h : isDigitChar c) :
    isAsciiLetter c = false := by
  simp only [isDigitChar, charCode, decide_eq_true_eq, Bool.and_eq_true,
    decide_eq_true_iff] at h
  simp only [isAsciiLetter, charCode, Bool.or_eq_false_iff, Bool.and_eq_false_iff,
    decide_eq_false_iff_not, not_le]
  omega

/-- On a string that decomposes as an all-letter block followed by a block
whose head is not a letter, `takeWhile isAsciiLetter` recovers exactly the
letter block. -/
theorem takeWhile_letters_append {L D : List Char}
    (hL : ∀ c ∈ L, isAsciiLetter c) (hD : ∀ c ∈ D, isDigitChar c) :
    (L ++ D).takeWhile isAsciiLetter = L ∧ (L ++ D).dropWhile isAsciiLetter = D := by
  induction L with
  | nil =>
    simp only [List.nil_append]
    cases D with
    | nil => exact ⟨rfl, rfl⟩
    | cons d D' =>
      have hd : isAsciiLetter d = false :=
        isDigitChar_not_isAsciiLetter (hD d (List.mem_cons_self d D'))
      constructor
      · exact List.takeWhile_cons_of_neg (by simp [hd])
      · exact List.dropWhile_cons_of_neg (by simp [hd])
  | cons a L' ih =>
    have ha : isAsciiLetter a := hL a (List.mem_cons_self a L')
    have ih' := ih (fun c hc => hL c (List.mem_cons_of_mem a hc))
    constructor
    · rw [List.cons_append, List.takeWhile_cons_of_pos ha, ih'.1]
    · rw [List.cons_append, List.dropWhile_cons_of_pos ha, ih'.2]

/-- For a letter, `toUpperCase` + `charCodeAt` − 64 equals the spec-side
bijective letter value A=1 … Z=26. -/
theorem upperCode_eq_specLetterVal {c : Char} (h : isAsciiLetter c) :
    upperCode c - 64 = specLetterVal c := by
  simp only [isAsciiLetter, charCode, Bool.or_eq_true, Bool.and_eq_true,
    decide_eq_true_iff] at h
  simp only [upperCode, specLetterVal, charCode]
  rcases h with ⟨h1, h2⟩ | ⟨h1, h2⟩ <;> (repeat' split) <;> omega

/-- The implementation's column fold agrees with the spec-side bijective
base-26 value on all-letter strings, for any accumulator. -/
theorem colFold_eq_specLettersVal {L : List Char} (hL : ∀ c ∈ L, isAsciiLetter c) :
    ∀ a : Nat, L.foldl (fun a c => a * 26 + (upperCode c - 64)) a =
      L.foldl (fun a c => a * 26 + specLetterVal c) a := by
  induction L with
  | nil => intro a; rfl
  | cons x L' ih =>
    intro a
    have hx : isAsciiLetter x := hL x (List.mem_cons_self x L')
    simp only [List.foldl_cons, upperCode_eq_specLetterVal hx]
    exact ih (fun c hc => hL c (List.mem_cons_of_mem x hc)) _

/-- C2 (part of): if `parseCellRef` succeeds, the string was a valid cell
reference. -/
theorem parseCellRef_some_valid {s : String} {p : CellPos}
    (h : parseCellRef s = some p) : ValidCellRef s := by
  unfold parseCellRef at h
  set L := s.data.takeWhile isAsciiLetter with hLdef
  set D := s.data.dropWhile isAsciiLetter with hDdef
  by_cases hL : L.isEmpty
  · simp [hL] at h
  by_cases hD : D.isEmpty
  · simp [hL, hD] at h
  by_cases hall : D.all isDigitChar
  · refine ⟨L, D, ?_, ?_, ?_, ?_, ?_⟩
    · rw [hLdef, hDdef, List.takeWhile_append_dropWhile]
    · simpa [List.isEmpty_iff] using hL
    · simpa [List.isEmpty_iff] using hD
    · intro c hc
      exact List.mem_takeWhile_imp (hLdef ▸ hc)
    · intro c hc
      exact (List.all_eq_true.mp hall) c hc
  · simp [hL, hD, hall] at h

/-- C2: functional correctness of `parseCellRef`.  For every valid cell
reference — a non-empty (case-insensitive) letter block followed by a
non-empty digit block — the result is the 0-indexed pair whose column is
the bijective base-26 value of the letters minus 1 and whose row is the
digit value minus 1; for every malformed string the result is `null`
(and, being a total function, the embedding never throws). -/
theorem parseCellRef_functional_correctness (s : String) :
    (∀ L D : List Char, s.data = L ++ D → L ≠ [] → D ≠ [] →
        (∀ c ∈ L, isAsciiLetter c) → (∀ c ∈ D, isDigitChar c) →
        parseCellRef s = some ⟨(digitsVal D : Int) - 1, (specLettersVal L : Int) - 1⟩) ∧
    (¬ ValidCellRef s → parseCellRef s = none) := by
  constructor
  · intro L D hsplit hLne hDne hL hD
    have htd := takeWhile_letters_append hL hD
    have hLe : L.isEmpty = false := by simpa [List.isEmpty_iff] using hLne
    have hDe : D.isEmpty = false := by simpa [List.isEmpty_iff] using hDne
    have hall : D.all isDigitChar = true := List.all_eq_true.mpr hD
    simp only [parseCellRef, hsplit, htd.1, htd.2, hLe, hDe, hall,
      Bool.false_eq_true, if_false, if_true]
    rw [colFold_eq_specLettersVal hL]
    rfl
  · intro hnv
    by_contra hne
    rcases Option.ne_none_iff_exists'.mp hne with ⟨p, hp⟩
    exact hnv (parseCellRef_some_valid hp)

/-- Witness for C2 at concrete inputs: `"B5"` parses to row 4, col 1 via
the positive direction, and `"5B"` is rejected via the negative one. -/
theorem parseCellRef_functional_correctness_witness :
    parseCellRef "B5" = some ⟨4, 1⟩ ∧ parseCellRef "5B" = none := by
  constructor
  · have h := (parseCellRef_functional_correctness "B5").1 ['B'] ['5']
      rfl (by decide) (by decide) (by decide) (by decide)
    simpa using h
  · refine (parseCellRef_functional_correctness "5B").2 ?_
    rintro ⟨L, D, hsplit, hLne, -, hL, -⟩
    have : "5B".data = L ++ D := hsplit
    cases L with
    | nil => exact hLne rfl
    | cons a L' =>
      have ha : isAsciiLetter a := hL a (List.mem_cons_self a L')
      have : a = '5' := by
        have := congrArg (List.head? ·) this
        simpa using this.symm
      subst this
      simp [isAsciiLetter, charCode] at ha

/-- C1 (counterexample): the write-pipeline's `parseCellRef` and the UI's
`parseRange` do NOT return the same pair on the valid reference `"B5"`:
the former gives row 4, the latter row 3. -/
theorem parseCellRef_parseRange_disagree :
    parseCellRef "B5" = some ⟨4, 1⟩ ∧ parseRange "B5" = some ⟨3, 1⟩ ∧
    parseCellRef "B5" ≠ parseRange "B5" := by
  refine ⟨by decide, by decide, by decide⟩

/-- C1 (amended): the two parsers accept exactly the same strings and
agree on the column, but the UI parser's row is always exactly one less
than the write-pipeline parser's row (the UI indexes data rows below the
header row, the pipeline indexes absolute sheet rows, so the same
physical cell is denoted by coordinates one apart). -/
theorem parseRange_eq_parseCellRef_shifted (s : String) :
    parseRange s = (parseCellRef s).map (fun p => ⟨p.row - 1, p.col⟩) := by
  unfold parseRange parseCellRef
  by_cases hL : (s.data.takeWhile isAsciiLetter).isEmpty
  · simp [hL]
  by_cases hD : (s.data.dropWhile isAsciiLetter).isEmpty
  · simp [hL, hD]
  by_cases hall : (s.data.dropWhile isAsciiLetter).all isDigitChar
  · simp only [hL, hD, hall, Bool.false_eq_true, if_false, if_true, Option.map_some']
    refine congrArg some ?_
    simp only [CellPos.mk.injEq]
    exact ⟨by omega, trivial⟩
  · simp [hL, hD, hall]

/-! ### Data Access Gateway (`google-sheets.ts`)

The Google Sheets client is modelled by `SheetsEnv`: one oracle field per
distinct backend call, each an `Except String α` (error = the call threw,
carrying the message).  `spreadsheetId` models `process.env.SPREADSHEET_ID`. -/

/-- Result shape `{ success: boolean; error?: string }`. -/
structure UpdateResult where
  success : Bool
  error : Option String
deriving DecidableEq, Repr

/-- Result shape `{ value: string; error?: string }`. -/
structure CellValueResult where
  value : String
  error : Option String
deriving DecidableEq, Repr

/-- Result shape `{ receiptId: string; error?: string }`. -/
structure ReceiptIdResult where
  receiptId : String
  error : Option String
deriving DecidableEq, Repr

/-- Tab contents `{ headers, rows }`. -/
structure TabData where
  headers : List String
  rows : List (List String)
deriving DecidableEq, Repr

/-- Environment for the sheets module: configuration plus one oracle per
backend call site.  A `cell` in `colA` is `none` when the sheet row has no
first cell. -/
structure SheetsEnv where
  spreadsheetId : Option String
  tabsResult : Sum (List String) String
  sheetValues : String → Except String (List (List String))
  colA : Except String (List (Option String))
  valuesUpdate : Except String Unit
  sheetIdLookup : Except String (Option Nat)
  batchUpdate : Except String Unit
  appendResult : Except String Unit
  cellRead : Except String (Option String)

/-- The JavaScript `\s` class for the characters that can occur in tab
names. -/
def isJsSpace (c : Char) : Bool :=
  c == ' ' || c == '\t' || c == '\n' || c == '\r' || charCode c == 11 || charCode c == 12

/-- `t.toLowerCase().replace(/\s/g, '')`. -/
def normalizeTabName (t : String) : String :=
  String.mk ((t.data.map Char.toLower).filter (fun c => !isJsSpace c))

/-- `getSheetTabs`: demo tab list when no spreadsheet id is configured,
otherwise the backend outcome (tab list or mapped error message). -/
def getSheetTabs (env : SheetsEnv) : Sum (List String) String :=
  match env.spreadsheetId with
  | none => .inl ["Pipeline", "Approved", "Rejected"]
  | some _ => env.tabsResult

/-- `findReceiptsTab`: first tab whose normalized name is `receipts` or
the misspelling `reciepts`; `null` when tab listing failed. -/
def findReceiptsTab (env : SheetsEnv) : Option String :=
  match getSheetTabs env with
  | .inr _ => none
  | .inl tabs =>
    tabs.find? (fun t =>
      normalizeTabName t == "receipts" || normalizeTabName t == "reciepts")

/-- The regex `^REC-(\d+)$` with `parseInt` on the captured digits. -/
def recMatch (s : String) : Option Nat :=
  match s.data with
  | 'R' :: 'E' :: 'C' :: '-' :: rest =>
    if !rest.isEmpty && rest.all isDigitChar then some (digitsVal rest) else none
  | _ => none

/-- `String(n).padStart(3, '0')`. -/
def padStart3 (n : Nat) : String :=
  let s := toString n
  if 3 ≤ s.length then s else String.mk (List.replicate (3 - s.length) '0') ++ s

/-- One iteration of the scan loop of `getNextReceiptId`. -/
def recScanStep (m : Nat) (cell : Option String) : Nat :=
  match cell with
  | some s =>
    match recMatch s with
    | some n => if n > m then n else m
    | none => m
  | none => m

/-- The scan loop of `getNextReceiptId`: running maximum of the numeric
suffixes of `REC-<digits>` entries in column A, starting from 0. -/
def maxRecNum (rows : List (Option String)) : Nat :=
  rows.foldl recScanStep 0

/-- The multiset of numeric receipt suffixes present in column A (spec
view of what the scan ranges over). -/
def recNums (rows : List (Option String)) : List Nat :=
  rows.filterMap (fun c => c.bind recMatch)

/-- `getNextReceiptId` from `google-sheets.ts`. -/
def getNextReceiptId (env : SheetsEnv) : ReceiptIdResult :=
  match env.spreadsheetId with
  | none => ⟨"REC-001", some "SPREADSHEET_ID not set in .env"⟩
  | some _ =>
    match findReceiptsTab env with
    | none => ⟨"REC-001", some "Receipts tab not found in spreadsheet"⟩
    | some _ =>
      match env.colA with
      | .error m => ⟨"REC-001", some ("Failed to get receipt ID: " ++ m)⟩
      | .ok rows => ⟨"REC-" ++ padStart3 (maxRecNum rows + 1), none⟩

/-- `appendRow`: error result in demo mode, else success unless the
backend append threw. -/
def appendRow (env : SheetsEnv) (_tab : String) (_values : List String) : UpdateResult :=
  match env.spreadsheetId with
  | none => ⟨false, some "SPREADSHEET_ID not set in .env"⟩
  | some _ =>
    match env.appendResult with
    | .error m => ⟨false, some ("Failed to append row: " ++ m)⟩
    | .ok _ => ⟨true, none⟩

/-- `getCellValue`: error result in demo mode; otherwise the backend's
`values?.[0]?.[0] ?? ''` stringified, or a mapped read error. -/
def getCellValue (env : SheetsEnv) (_tab _range : String) : CellValueResult :=
  match env.spreadsheetId with
  | none => ⟨"", some "SPREADSHEET_ID not set in .env"⟩
  | some _ =>
    match env.cellRead with
    | .error m => ⟨"", some ("Failed to read cell: " ++ m)⟩
    | .ok none => ⟨"", none⟩
    | .ok (some v) => ⟨v, none⟩

/-- Observable outcome of `setCellBackgroundGreen` (which itself returns
void and never throws: every failure is caught and logged). -/
inductive BgOutcome where
  | skippedNoSid
  | skippedBadRef
  | skippedNoSheetId
  | done
  | failed (msg : String)
deriving DecidableEq, Repr

/-- `setCellBackgroundGreen`: no-op without a spreadsheet id or on an
unparsable reference; looks up the numeric sheet id and issues the
`repeatCell` batch update; any thrown error is caught (non-fatal). -/
def setCellBackgroundGreen (env : SheetsEnv) (_tab : String) (range : String) : BgOutcome :=
  match env.spreadsheetId with
  | none => .skippedNoSid
  | some _ =>
    match parseCellRef range with
    | none => .skippedBadRef
    | some _ =>
      match env.sheetIdLookup with
      | .error m => .failed m
      | .ok none => .skippedNoSheetId
      | .ok (some _) =>
        match env.batchUpdate with
        | .error m => .failed m
        | .ok _ => .done

/-- `updateCell`: error result in demo mode; on primary write success the
cell background is additionally set (best-effort, outcome ignored) and
the result is success; a thrown primary write maps to a failure result. -/
def updateCell (env : SheetsEnv) (tab range _value : String) : UpdateResult :=
  match env.spreadsheetId with
  | none => ⟨false, some "SPREADSHEET_ID not set in .env"⟩
  | some _ =>
    match env.valuesUpdate with
    | .error m => ⟨false, some ("Failed to update cell: " ++ m)⟩
    | .ok _ =>
      let _ := setCellBackgroundGreen env tab range
      ⟨true, none⟩

/-- Demo-mode canned tables of `getSheetData`. -/
def mockData (tabName : String) : TabData :=
  if tabName = "Pipeline" then
    ⟨["Company", "Stage", "Amount", "Contact"],
     [["Acme Corp", "Proposal", "$50,000", "john@acme.com"],
      ["TechStart", "Negotiation", "$75,000", "sarah@techstart.io"],
      ["GlobalInc", "Discovery", "$120,000", "mike@globalinc.com"]]⟩
  else if tabName = "Approved" then
    ⟨["Company", "Amount", "Close Date", "Owner"],
     [["BigCo", "$200,000", "2024-01-15", "Alice"],
      ["MegaCorp", "$350,000", "2024-02-20", "Bob"]]⟩
  else if tabName = "Rejected" then
    ⟨["Company", "Reason", "Date", "Notes"],
     [["SmallBiz", "Budget constraints", "2024-01-10", "May revisit Q3"]]⟩
  else ⟨["No data"], []⟩

/-- Substring test (`message.includes(...)`). -/
def containsSub (s sub : String) : Bool :=
  decide (sub.data <:+: s.data)

/-- The error-message taxonomy of `getSheetData`'s catch branch. -/
def sheetDataError (tabName m : String) : String :=
  if containsSub m "invalid_grant" || containsSub m "401" then
    "Auth failed. Check your service account credentials."
  else if containsSub m "404" || containsSub m "Unable to parse range" then
    "Sheet \"" ++ tabName ++ "\" not found."
  else "Failed to fetch data: " ++ m

/-- `getSheetData`: canned table in demo mode; otherwise first backend row
is the header and the rest are data rows, with zero rows giving the empty
(non-error) table. -/
def getSheetData (env : SheetsEnv) (tabName : String) : Sum TabData String :=
  match env.spreadsheetId with
  | none => .inl (mockData tabName)
  | some _ =>
    match env.sheetValues tabName with
    | .error m => .inr (sheetDataError tabName m)
    | .ok [] => .inl ⟨[], []⟩
    | .ok (h :: rest) => .inl ⟨h, rest⟩

/-! ### Properties of the receipt-id scan -/

/-- A cell carrying no `REC-<digits>` match leaves the running maximum
unchanged. -/
theorem recScanStep_of_none {c : Option String} (h : c.bind recMatch = none)
    (a : Nat) : recScanStep a c = a := by
  cases c with
  | none => rfl
  | some s =>
    simp only [Option.some_bind] at h
    simp [recScanStep, h]

/-- A cell matching `REC-<digits>` with value `m` updates the running
maximum to `max` of the two. -/
theorem recScanStep_of_some {c : Option String} {m : Nat}
    (h : c.bind recMatch = some m) (a : Nat) :
    recScanStep a c = if m > a then m else a := by
  cases c with
  | none => simp at h
  | some s =>
    simp only [Option.some_bind] at h
    simp [recScanStep, h]

/-- `recNums` on a cons unfolds by the head cell's match. -/
theorem recNums_cons (c : Option String) (rest : List (Option String)) :
    recNums (c :: rest) =
      (match c.bind recMatch with
       | some n => n :: recNums rest
       | none => recNums rest) := by
  rcases hc : c.bind recMatch with - | m <;>
    simp [recNums, List.filterMap_cons, hc]

/-- The accumulator never decreases along the scan. -/
theorem recScan_mono (rows : List (Option String)) :
    ∀ a : Nat, a ≤ rows.foldl recScanStep a := by
  induction rows with
  | nil => intro a; exact Nat.le_refl a
  | cons c rest ih =>
    intro a
    simp only [List.foldl_cons]
    have h1 : a ≤ recScanStep a c := by
      rcases hcm : c.bind recMatch with - | m
      · rw [recScanStep_of_none hcm]
      · rw [recScanStep_of_some hcm]; split <;> omega
    exact Nat.le_trans h1 (ih _)

/-- Every matched numeric suffix is bounded by the scan result. -/
theorem recScan_le (rows : List (Option String)) :
    ∀ (a n : Nat), n ∈ recNums rows → n ≤ rows.foldl recScanStep a := by
  induction rows with
  | nil => intro a n hn; simp [recNums] at hn
  | cons c rest ih =>
    intro a n hn
    simp only [List.foldl_cons]
    rcases hcm : c.bind recMatch with - | m
    · rw [recNums_cons, hcm] at hn
      exact ih _ n hn
    · rw [recNums_cons, hcm, List.mem_cons] at hn
      rcases hn with rfl | hn
      · have h1 : n ≤ recScanStep a c := by
          rw [recScanStep_of_some hcm]; split <;> omega
        exact Nat.le_trans h1 (recScan_mono rest _)
      · exact ih _ n hn

/-- Matched suffixes of a tail are matched suffixes of the whole column. -/
theorem recNums_subset_cons {n : Nat} (c : Option String)
    {rest : List (Option String)} (h : n ∈ recNums rest) :
    n ∈ recNums (c :: rest) := by
  rw [recNums_cons]
  rcases hcm : c.bind recMatch with - | m
  · exact h
  · exact List.mem_cons_of_mem m h

/-- The scan result is the start value or one of the matched suffixes. -/
theorem recScan_mem (rows : List (Option String)) :
    ∀ a : Nat, rows.foldl recScanStep a = a ∨ rows.foldl recScanStep a ∈ recNums rows := by
  induction rows with
  | nil => intro a; exact Or.inl rfl
  | cons c rest ih =>
    intro a
    simp only [List.foldl_cons]
    rcases ih (recScanStep a c) with h | h
    · rw [h]
      rcases hcm : c.bind recMatch with - | m
      · exact Or.inl (recScanStep_of_none hcm a)
      · rw [recScanStep_of_some hcm]
        by_cases hgt : m > a
        · right
          rw [if_pos hgt, recNums_cons, hcm]
          exact List.mem_cons_self m _
        · exact Or.inl (if_neg hgt)
    · exact Or.inr (recNums_subset_cons c h)

/-- C3: `getNextReceiptId` with a configured spreadsheet.  When the
receipts tab is missing, it returns `REC-001` (with an error note); when
the tab is found and column A is fetched, it returns `REC-` followed by
the maximum matched `REC-<digits>` value plus one, zero-padded to width 3
— where the scan value really is the maximum (it bounds every matched
entry and, when non-zero, is one of them; with no matching entries it is
0, giving `REC-001`). -/
theorem getNextReceiptId_correct (env : SheetsEnv) (sid : String)
    (h : env.spreadsheetId = some sid) :
    (findReceiptsTab env = none →
      getNextReceiptId env = ⟨"REC-001", some "Receipts tab not found in spreadsheet"⟩) ∧
    (∀ tab rows, findReceiptsTab env = some tab → env.colA = .ok rows →
      getNextReceiptId env = ⟨"REC-" ++ padStart3 (maxRecNum rows + 1), none⟩ ∧
      (∀ n ∈ recNums rows, n ≤ maxRecNum rows) ∧
      (maxRecNum rows = 0 ∨ maxRecNum rows ∈ recNums rows) ∧
      (recNums rows = [] → getNextReceiptId env = ⟨"REC-001", none⟩)) := by
  constructor
  · intro hnone
    simp [getNextReceiptId, h, hnone]
  · intro tab rows htab hcol
    have hmain : getNextReceiptId env = ⟨"REC-" ++ padStart3 (maxRecNum rows + 1), none⟩ := by
      simp [getNextReceiptId, h, htab, hcol]
    refine ⟨hmain, recScan_le rows 0, recScan_mem rows 0, ?_⟩
    intro hempty
    have hzero : maxRecNum rows = 0 := by
      rcases recScan_mem rows 0 with h0 | h0
      · exact h0
      · rw [maxRecNum] at *
        rw [hempty] at h0
        simp at h0
    rw [hmain, hzero]
    rfl

/-- A live environment whose receipts ledger holds `REC-001`, `REC-002`,
`REC-007`. -/
def ledgerEnvA : SheetsEnv :=
  { spreadsheetId := some "sheet1", tabsResult := .inl ["Pipeline", "Receipts"],
    sheetValues := fun _ => .ok [], colA := .ok [some "REC-001", some "REC-002", some "REC-007"],
    valuesUpdate := .ok (), sheetIdLookup := .ok none, batchUpdate := .ok (),
    appendResult := .ok (), cellRead := .ok none }

/-- A live environment with an empty receipts ledger. -/
def ledgerEnvEmpty : SheetsEnv :=
  { ledgerEnvA with colA := .ok [] }

/-- A live environment with no receipts tab at all. -/
def ledgerEnvNoTab : SheetsEnv :=
  { ledgerEnvA with tabsResult := .inl ["Pipeline", "Approved"] }

/-- Witness for C3: a ledger containing `REC-001, REC-002, REC-007` gives
`REC-008`; an empty ledger gives `REC-001`; a spreadsheet without a
receipts tab gives `REC-001`. -/
theorem getNextReceiptId_correct_witness :
    getNextReceiptId ledgerEnvA = ⟨"REC-008", none⟩ ∧
    getNextReceiptId ledgerEnvEmpty = ⟨"REC-001", none⟩ ∧
    (getNextReceiptId ledgerEnvNoTab).receiptId = "REC-001" := by
  refine ⟨?_, ?_, ?_⟩
  · have h := ((getNextReceiptId_correct ledgerEnvA "sheet1" rfl).2 "Receipts"
      [some "REC-001", some "REC-002", some "REC-007"] (by decide) rfl).1
    rw [h]
    decide
  · have h := ((getNextReceiptId_correct ledgerEnvEmpty "sheet1" rfl).2 "Receipts"
      [] (by decide) rfl).1
    rw [h]
    decide
  · have h := (getNextReceiptId_correct ledgerEnvNoTab "sheet1" rfl).1 (by decide)
    rw [h]

/-- C7: whenever the primary single-cell value write succeeds, `updateCell`
reports success with no error — for every possible outcome of the
secondary background-marker calls (the environment, and with it the
sheet-id lookup and batch update, is arbitrary); and a failing background
call really does fail internally (it is merely caught and logged). -/
theorem updateCell_success_despite_background_failure
    (env : SheetsEnv) (tab range value sid : String)
    (hsid : env.spreadsheetId = some sid)
    (hwrite : env.valuesUpdate = .ok ()) :
    updateCell env tab range value = ⟨true, none⟩ ∧
    (∀ m, env.sheetIdLookup = .error m →
      setCellBackgroundGreen env tab range = .failed m ∨
      setCellBackgroundGreen env tab range = .skippedBadRef) := by
  constructor
  · simp [updateCell, hsid, hwrite]
  · intro m hm
    rcases hp : parseCellRef range with - | p
    · right
      simp [setCellBackgroundGreen, hsid, hp]
    · left
      simp [setCellBackgroundGreen, hsid, hp, hm]

/-- A live environment whose background-marker lookup throws. -/
def bgFailEnv : SheetsEnv :=
  { ledgerEnvA with sheetIdLookup := .error "boom" }

/-- Witness for C7: with a throwing background lookup, the write still
reports success and the background attempt observably failed. -/
theorem updateCell_success_despite_background_failure_witness :
    updateCell bgFailEnv "Pipeline" "B5" "Approved" = ⟨true, none⟩ ∧
    setCellBackgroundGreen bgFailEnv "Pipeline" "B5" = .failed "boom" := by
  have h := updateCell_success_despite_background_failure bgFailEnv
    "Pipeline" "B5" "Approved" "sheet1" rfl rfl
  refine ⟨h.1, ?_⟩
  rcases h.2 "boom" rfl with h2 | h2
  · exact h2
  · exact absurd h2 (by decide)

/-- C10: demo/offline mode (no spreadsheet identifier) is read-only.
`getSheetTabs` and `getSheetData` return canned data, while every
write-side or receipt-side operation — `updateCell`, `appendRow`,
`getCellValue`, `getNextReceiptId` — returns an error result for every
input instead of canned success. -/
theorem demoMode_readonly (env : SheetsEnv) (h : env.spreadsheetId = none) :
    getSheetTabs env = .inl ["Pipeline", "Approved", "Rejected"] ∧
    getSheetData env "Approved" =
      .inl ⟨["Company", "Amount", "Close Date", "Owner"],
            [["BigCo", "$200,000", "2024-01-15", "Alice"],
             ["MegaCorp", "$350,000", "2024-02-20", "Bob"]]⟩ ∧
    (∀ tab range value, updateCell env tab range value =
      ⟨false, some "SPREADSHEET_ID not set in .env"⟩) ∧
    (∀ tab values, appendRow env tab values =
      ⟨false, some "SPREADSHEET_ID not set in .env"⟩) ∧
    (∀ tab range, getCellValue env tab range =
      ⟨"", some "SPREADSHEET_ID not set in .env"⟩) ∧
    getNextReceiptId env = ⟨"REC-001", some "SPREADSHEET_ID not set in .env"⟩ := by
  refine ⟨?_, ?_, ?_, ?_, ?_, ?_⟩
  · simp [getSheetTabs, h]
  · simp [getSheetData, h, mockData]
  · intro tab range value; simp [updateCell, h]
  · intro tab values; simp [appendRow, h]
  · intro tab range; simp [getCellValue, h]
  · simp [getNextReceiptId, h]

/-- A demo-mode environment (no spreadsheet id configured). -/
def demoEnv : SheetsEnv :=
  { spreadsheetId := none, tabsResult := .inl [],
    sheetValues := fun _ => .ok [], colA := .ok [],
    valuesUpdate := .ok (), sheetIdLookup := .ok none, batchUpdate := .ok (),
    appendResult := .ok (), cellRead := .ok none }

/-- Witness for C10 at concrete inputs. -/
theorem demoMode_readonly_witness :
    getSheetTabs demoEnv = .inl ["Pipeline", "Approved", "Rejected"] ∧
    updateCell demoEnv "Pipeline" "B5" "x" =
      ⟨false, some "SPREADSHEET_ID not set in .env"⟩ ∧
    appendRow demoEnv "Receipts" ["REC-001"] =
      ⟨false, some "SPREADSHEET_ID not set in .env"⟩ ∧
    getCellValue demoEnv "Pipeline" "B5" =
      ⟨"", some "SPREADSHEET_ID not set in .env"⟩ ∧
    getNextReceiptId demoEnv = ⟨"REC-001", some "SPREADSHEET_ID not set in .env"⟩ := by
  have h := demoMode_readonly demoEnv rfl
  exact ⟨h.1, h.2.2.1 "Pipeline" "B5" "x", h.2.2.2.1 "Receipts" ["REC-001"],
    h.2.2.2.2.1 "Pipeline" "B5", h.2.2.2.2.2⟩

/-! ### Renderer pipeline (`App.tsx`): apply and modify

`handleApply` and `handleModify` are embedded as functions of the results
the preload IPC bridge returns.  Every bridged operation catches its own
failures and returns a structured result, so the oracles carry result
values, not exceptions. -/

/-- A single-cell action `{tab, range, newValue}`. -/
structure RecAction where
  tab : String
  range : String
  newValue : String
deriving DecidableEq, Repr

/-- A model-produced recommendation. -/
structure Recommendation where
  id : String
  title : String
  description : String
  category : String
  sourceReferences : Option (List String)
  action : RecAction
deriving DecidableEq, Repr

/-- Per-card UI state (`RecCardState`). -/
structure RecCardState where
  loading : Bool := false
  applied : Bool := false
  error : Option String := none
  modificationNotes : Option String := none
  modifying : Bool := false
  modifiedAction : Option RecAction := none
deriving DecidableEq, Repr

/-- The audit receipt assembled by `handleApply`. -/
structure Receipt where
  receiptId : String
  timestamp : String
  recommendationId : String
  recommendationTitle : String
  category : String
  tab : String
  cell : String
  originalValue : String
  newValue : String
  modificationNotes : String
  wasModified : String
  sourceReferences : String
  appliedBy : String
  status : String
deriving DecidableEq, Repr

/-- JavaScript `a || b` on a possibly-absent string: the default kicks in
when the string is absent or empty (falsy). -/
def jsOr (o : Option String) (d : String) : String :=
  match o with
  | some s => if s = "" then d else s
  | none => d

/-- JavaScript `a || b` on a present string. -/
def jsOrStr (s d : String) : String :=
  if s = "" then d else s

/-- JavaScript `String.prototype.trim`. -/
def jsTrim (s : String) : String :=
  String.mk (((s.data.dropWhile Char.isWhitespace).reverse.dropWhile Char.isWhitespace).reverse)

/-- `state.modifiedAction || rec.action` — the action an apply acts on. -/
def effectiveAction (rec : Recommendation) (state : RecCardState) : RecAction :=
  state.modifiedAction.getD rec.action

/-- Results of the four bridged calls one `handleApply` run makes, plus
the wall-clock timestamp. -/
structure ApplyEnv where
  cellResult : CellValueResult
  updateResult : UpdateResult
  receiptIdResult : ReceiptIdResult
  appendResult : UpdateResult
  now : String

/-- Observable outcome of one `handleApply` run: the card's final state,
the receipt passed to `appendReceipt` (if that call happened at all), the
logged append warning, the toast, and the highlight key added. -/
structure ApplyOutput where
  finalState : RecCardState
  receiptAppended : Option Receipt
  warnLogged : Option String
  toast : Option String
  highlightAdded : Option String
deriving DecidableEq, Repr

/-- `handleApply` from `App.tsx`: read the current cell value, write the
new value; on write success assemble a receipt, append it (warning only
on append error), mark the card applied, toast, and highlight; on write
failure record the error on the card and stop. -/
def handleApply (env : ApplyEnv) (rec : Recommendation) (state : RecCardState) : ApplyOutput :=
  let notes := state.modificationNotes.getD ""
  let finalAction := effectiveAction rec state
  let wasModified := state.modifiedAction.isSome
  let originalValue := jsOrStr env.cellResult.value ""
  if env.updateResult.success then
    let receipt : Receipt :=
      { receiptId := env.receiptIdResult.receiptId
        timestamp := env.now
        recommendationId := rec.id
        recommendationTitle := rec.title
        category := jsOrStr rec.category "Other"
        tab := finalAction.tab
        cell := finalAction.range
        originalValue := originalValue
        newValue := finalAction.newValue
        modificationNotes := notes
        wasModified := if wasModified then "Yes" else "No"
        sourceReferences := String.intercalate "; " (rec.sourceReferences.getD [])
        appliedBy := "User"
        status := "Applied" }
    { finalState := { applied := true }
      receiptAppended := some receipt
      warnLogged := env.appendResult.error
      toast := some ("Updated " ++ finalAction.tab ++ " " ++ finalAction.range ++ " successfully")
      highlightAdded := some (finalAction.tab ++ ":" ++ finalAction.range) }
  else
    { finalState := { state with loading := false,
                                 error := some (jsOr env.updateResult.error "Update failed") }
      receiptAppended := none
      warnLogged := none
      toast := none
      highlightAdded := none }

/-- Observable outcome of one `handleModify` run. -/
structure ModifyOutput where
  finalState : RecCardState
  backendCalled : Bool
  toast : Option String
deriving DecidableEq, Repr

/-- `handleModify` from `App.tsx`: trim the card's modification notes and
return immediately when they are empty; otherwise send the recommendation
and notes to the model backend (`modifyRecommendation`, whose outcome is
an action or an error object) and record the result on the card. -/
def handleModify (modifyResult : Sum RecAction String) (rec : Recommendation)
    (state : RecCardState) : ModifyOutput :=
  let notes := jsTrim (state.modificationNotes.getD "")
  if notes = "" then ⟨state, false, none⟩
  else
    match modifyResult with
    | .inr e => ⟨{ state with modifying := false, error := some e }, true, none⟩
    | .inl act =>
      ⟨{ state with modifying := false, error := none, modifiedAction := some act }, true,
       some ("Action for \"" ++ rec.title ++ "\" modified by Haiku")⟩

/-- C4: when the cell write reports failure, `handleApply` never reaches
the receipt step — no receipt is assembled or appended — and the failure
is surfaced on the card, with no success toast or highlight. -/
theorem handleApply_write_failure_no_receipt
    (env : ApplyEnv) (rec : Recommendation) (state : RecCardState)
    (h : env.updateResult.success = false) :
    (handleApply env rec state).receiptAppended = none ∧
    (handleApply env rec state).finalState.error =
      some (jsOr env.updateResult.error "Update failed") ∧
    (handleApply env rec state).finalState.applied = state.applied ∧
    (handleApply env rec state).toast = none ∧
    (handleApply env rec state).highlightAdded = none := by
  simp [handleApply, h]

/-- A stub recommendation for the witnesses. -/
def recEx : Recommendation :=
  { id := "rec_1", title := "Fix stage", description := "d", category := "Other",
    sourceReferences := none, action := ⟨"Pipeline", "B5", "Approved"⟩ }

/-- An apply run whose write fails. -/
def applyEnvWriteFail : ApplyEnv :=
  { cellResult := ⟨"Proposal", none⟩,
    updateResult := ⟨false, some "Failed to update cell: quota"⟩,
    receiptIdResult := ⟨"REC-001", none⟩,
    appendResult := ⟨true, none⟩,
    now := "2024-01-01T00:00:00Z" }

/-- Witness for C4 at a concrete failing write. -/
theorem handleApply_write_failure_no_receipt_witness :
    (handleApply applyEnvWriteFail recEx {}).receiptAppended = none ∧
    (handleApply applyEnvWriteFail recEx {}).finalState.error =
      some "Failed to update cell: quota" ∧
    (handleApply applyEnvWriteFail recEx {}).toast = none := by
  have h := handleApply_write_failure_no_receipt applyEnvWriteFail recEx {} rfl
  exact ⟨h.1, by rw [h.2.1]; decide, h.2.2.2.1⟩

/-- C5: when the cell write succeeds but the receipt append fails, the
pipeline still reports overall success: the card is terminally applied
with no error, the success toast and highlight fire, and the append
failure is only logged as a warning (the receipt step ran after the
write, which is never reverted). -/
theorem handleApply_append_failure_still_success
    (env : ApplyEnv) (rec : Recommendation) (state : RecCardState) (e : String)
    (h1 : env.updateResult.success = true)
    (h2 : env.appendResult.error = some e) :
    (handleApply env rec state).finalState = { applied := true } ∧
    (handleApply env rec state).finalState.error = none ∧
    (handleApply env rec state).warnLogged = some e ∧
    (handleApply env rec state).receiptAppended.isSome = true ∧
    (handleApply env rec state).toast =
      some ("Updated " ++ (effectiveAction rec state).tab ++ " " ++
        (effectiveAction rec state).range ++ " successfully") ∧
    (handleApply env rec state).highlightAdded =
      some ((effectiveAction rec state).tab ++ ":" ++ (effectiveAction rec state).range) := by
  simp [handleApply, h1, h2]

/-- An apply run whose write succeeds and whose receipt append fails. -/
def applyEnvAppendFail : ApplyEnv :=
  { cellResult := ⟨"Proposal", none⟩,
    updateResult := ⟨true, none⟩,
    receiptIdResult := ⟨"REC-003", none⟩,
    appendResult := ⟨false, some "Failed to append row: no receipts tab"⟩,
    now := "2024-01-01T00:00:00Z" }

/-- Witness for C5 at a concrete failing append. -/
theorem handleApply_append_failure_still_success_witness :
    (handleApply applyEnvAppendFail recEx {}).finalState = { applied := true } ∧
    (handleApply applyEnvAppendFail recEx {}).warnLogged =
      some "Failed to append row: no receipts tab" := by
  have h := handleApply_append_failure_still_success applyEnvAppendFail recEx {}
    "Failed to append row: no receipts tab" rfl rfl
  exact ⟨h.1, h.2.2.1⟩

/-- C6: with empty or whitespace-only modification notes, `handleModify`
short-circuits: the model backend is never called, the card state is
returned unchanged, and (when no earlier modification is recorded) the
action a subsequent apply uses is still the recommendation's original
action. -/
theorem handleModify_empty_notes_short_circuit
    (modifyResult : Sum RecAction String) (rec : Recommendation) (state : RecCardState)
    (h : jsTrim (state.modificationNotes.getD "") = "") :
    handleModify modifyResult rec state = ⟨state, false, none⟩ ∧
    (state.modifiedAction = none →
      effectiveAction rec (handleModify modifyResult rec state).finalState = rec.action) := by
  constructor
  · simp [handleModify, h]
  · intro hna
    simp [handleModify, h, effectiveAction, hna]

/-- Witness for C6: whitespace-only notes short-circuit and leave the
original action in force. -/
theorem handleModify_empty_notes_short_circuit_witness :
    handleModify (.inl ⟨"T", "A1", "v"⟩) recEx { modificationNotes := some "   " } =
      ⟨{ modificationNotes := some "   " }, false, none⟩ ∧
    effectiveAction recEx
      (handleModify (.inl ⟨"T", "A1", "v"⟩) recEx
        { modificationNotes := some "   " }).finalState = recEx.action := by
  have h := handleModify_empty_notes_short_circuit (.inl ⟨"T", "A1", "v"⟩) recEx
    { modificationNotes := some "   " } (by decide)
  exact ⟨h.1, h.2 rfl⟩

/-! ### Analysis Requestor (the LLM module)

`analyzeData` is embedded over an environment carrying the configuration
and one oracle per backend interaction.  `response` is the model call
(applied to the assembled user message; an `error` is a thrown request),
and `jsonParse` is JavaScript's `JSON.parse` restricted to the expected
result shape (an `error` is a thrown `SyntaxError`). -/

/-- Document element kinds. -/
inductive DocElemType where
  | heading
  | paragraph
  | listItem
  | table
deriving DecidableEq, Repr

/-- A flat document element. -/
structure DocElement where
  type : DocElemType
  content : String
  level : Option Nat
deriving DecidableEq, Repr

/-- Document content `{title, elements}`. -/
structure DocContent where
  title : String
  elements : List DocElement
deriving DecidableEq, Repr

/-- The analysis result shape `{summary, recommendations, error?}`. -/
structure AnalysisResult where
  summary : String
  recommendations : List Recommendation
  error : Option String
deriving DecidableEq, Repr

/-- A content block of the model response: a text block or anything else. -/
inductive ContentBlock where
  | text (s : String)
  | nonText
deriving DecidableEq, Repr

/-- Environment of one `analyzeData` run. -/
structure LLMEnv where
  apiKey : Option String
  tabsResult : Sum (List String) String
  tabData : String → Sum TabData String
  doc : Option DocContent
  response : String → Except String (List ContentBlock)
  jsonParse : String → Except String AnalysisResult

/-- `Array.isArray(tabsResult) ? tabsResult : []`. -/
def tabsOf (env : LLMEnv) : List String :=
  match env.tabsResult with
  | .inl l => l
  | .inr _ => []

/-- The serialized section one tab contributes to the prompt. -/
def sectionFor (tab : String) (d : TabData) : String :=
  "\n--- Sheet Tab: \"" ++ tab ++ "\" ---\n" ++
  "Headers: " ++ String.intercalate " | " d.headers ++ "\n" ++
  String.join (d.rows.map (fun r => String.intercalate " | " r ++ "\n"))

/-- The data-gathering loop: fetch each tab, skip tabs whose fetch
returned an error, serialize the rest in order. -/
def gatherParts (env : LLMEnv) : List String → List String
  | [] => []
  | t :: ts =>
    match env.tabData t with
    | .inr _ => gatherParts env ts
    | .inl d => sectionFor t d :: gatherParts env ts

/-- The `sheetDataParts` accumulated by `analyzeData`. -/
def sheetDataParts (env : LLMEnv) : List String :=
  gatherParts env (tabsOf env)

/-- The serialized document section (empty when no document). -/
def docSection (env : LLMEnv) : String :=
  match env.doc with
  | none => ""
  | some dc =>
    "\n--- Document: \"" ++ dc.title ++ "\" ---\n" ++
    String.join (dc.elements.map (fun el =>
      match el.type with
      | .heading => "\n## " ++ el.content ++ "\n"
      | _ => el.content ++ "\n"))

/-- The user message sent to the model. -/
def userMessage (env : LLMEnv) : String :=
  "Here is the spreadsheet data:\n" ++ String.intercalate "\n" (sheetDataParts env) ++
  (if docSection env = "" then "" else "\n\nHere is the document content:" ++ docSection env)

/-- `response.content.find((b) => b.type === 'text')`. -/
def firstText : List ContentBlock → Option String
  | [] => none
  | .text s :: _ => some s
  | .nonText :: bs => firstText bs

/-- The backtick character, written by code point. -/
def backtickChar : Char := Char.ofNat 96

/-- Opening and closing brace characters, written by code point. -/
def lbraceChar : Char := Char.ofNat 123

def rbraceChar : Char := Char.ofNat 125

/-- The `[\w]` class. -/
def isWordChar (c : Char) : Bool :=
  isAsciiLetter c || isDigitChar c || c == '_'

/-- `replace(/^\x60\x60\x60[\w]*\n?/, '')`: drop a leading fenced
code-block opener. -/
def stripLeadingFence (l : List Char) : List Char :=
  match l with
  | c1 :: c2 :: c3 :: rest =>
    if c1 == backtickChar && c2 == backtickChar && c3 == backtickChar then
      let r2 := rest.dropWhile isWordChar
      match r2 with
      | '\n' :: r3 => r3
      | _ => r2
    else l
  | _ => l

/-- `replace(/\n?\x60\x60\x60$/, '')`: drop a trailing fence. -/
def stripTrailingFence (l : List Char) : List Char :=
  match l.reverse with
  | c1 :: c2 :: c3 :: rest =>
    if c1 == backtickChar && c2 == backtickChar && c3 == backtickChar then
      (match rest with
       | '\n' :: r3 => r3
       | _ => rest).reverse
    else l
  | _ => l

/-- The brace-slicing fallback: slice from the first `\x7b` to the last
`\x7d` when both exist in that order, else leave the text unchanged. -/
def braceSlice (l : List Char) : List Char :=
  match l.findIdx? (· == lbraceChar), l.reverse.findIdx? (· == rbraceChar) with
  | some i, some jr =>
    let j := l.length - 1 - jr
    if i < j then (l.take (j + 1)).drop i else l
  | _, _ => l

/-- The full extraction applied to the model's text: trim, strip fences,
brace-slice. -/
def extractJson (t : String) : String :=
  String.mk (braceSlice (stripTrailingFence (stripLeadingFence (jsTrim t).data)))

/-- Steps (e)–(f): call the model and pick the first text block, mapping
each failure to the message `analyzeData` reports for it. -/
def responseText (env : LLMEnv) : Except String String :=
  match env.response (userMessage env) with
  | .error m => .error ("Analysis failed: " ++ m)
  | .ok blocks =>
    match firstText blocks with
    | none => .error "No text response from Claude"
    | some t => .ok t

/-- `analyzeData` from the LLM module. -/
def analyzeData (env : LLMEnv) : AnalysisResult :=
  match env.apiKey with
  | none => ⟨"", [], some "ANTHROPIC_API_KEY not set in .env"⟩
  | some _ =>
    match responseText env with
    | .error m => ⟨"", [], some m⟩
    | .ok t =>
      match env.jsonParse (extractJson t) with
      | .error m => ⟨"", [], some ("Analysis failed: " ++ m)⟩
      | .ok parsed => parsed

/-- C8: `analyzeData` is total (the embedding never throws) and every
failure at any step — missing API key, thrown model request, no text
block in the response, JSON parse failure — yields exactly
`{summary: '', recommendations: [], error: <message>}`; the only other
possible output is a successfully parsed result returned verbatim. -/
theorem analyzeData_error_containment (env : LLMEnv) :
    (∃ m, analyzeData env = ⟨"", [], some m⟩) ∨
    (∃ t r, responseText env = .ok t ∧
      env.jsonParse (extractJson t) = .ok r ∧ analyzeData env = r) := by
  rcases hk : env.apiKey with - | k
  · exact Or.inl ⟨"ANTHROPIC_API_KEY not set in .env", by simp [analyzeData, hk]⟩
  · rcases hr : responseText env with m | t
    · exact Or.inl ⟨m, by simp [analyzeData, hk, hr]⟩
    · rcases hp : env.jsonParse (extractJson t) with m | r
      · exact Or.inl ⟨"Analysis failed: " ++ m, by simp [analyzeData, hk, hr, hp]⟩
      · exact Or.inr ⟨t, r, rfl, hp, by simp [analyzeData, hk, hr, hp]⟩

/-- The gathering loop keeps, in order, exactly the sections of the tabs
whose fetch succeeded. -/
theorem gatherParts_eq_filterMap (env : LLMEnv) (l : List String) :
    gatherParts env l = l.filterMap (fun t =>
      match env.tabData t with
      | .inl d => some (sectionFor t d)
      | .inr _ => none) := by
  induction l with
  | nil => rfl
  | cons t ts ih =>
    rcases ht : env.tabData t with d | e <;>
      simp [gatherParts, ht, List.filterMap_cons, ih]

/-- C9: when one of three tabs fails to fetch, the snapshot serialized
into the prompt contains exactly the other two tabs' sections, in order,
and the analysis still completes: given a model response that parses, the
run returns the parsed result. -/
theorem analyzeData_partial_failure_tolerance
    (env : LLMEnv) (t1 t2 t3 e : String) (d1 d3 : TabData)
    (htabs : env.tabsResult = .inl [t1, t2, t3])
    (h1 : env.tabData t1 = .inl d1)
    (h2 : env.tabData t2 = .inr e)
    (h3 : env.tabData t3 = .inl d3) :
    sheetDataParts env = [sectionFor t1 d1, sectionFor t3 d3] ∧
    userMessage env = "Here is the spreadsheet data:\n" ++
      (sectionFor t1 d1 ++ "\n" ++ sectionFor t3 d3) ++
      (if docSection env = "" then "" else
        "\n\nHere is the document content:" ++ docSection env) ∧
    (∀ k t r, env.apiKey = some k → responseText env = .ok t →
      env.jsonParse (extractJson t) = .ok r → analyzeData env = r) := by
  have hparts : sheetDataParts env = [sectionFor t1 d1, sectionFor t3 d3] := by
    simp [sheetDataParts, tabsOf, htabs, gatherParts, h1, h2, h3]
  have hpair : String.intercalate "\n" [sectionFor t1 d1, sectionFor t3 d3] =
      sectionFor t1 d1 ++ "\n" ++ sectionFor t3 d3 := rfl
  refine ⟨hparts, ?_, ?_⟩
  · rw [userMessage, hparts, hpair]
  · intro k t r hk ht hp
    simp [analyzeData, hk, ht, hp]

/-- A three-tab environment whose middle tab fails to fetch. -/
def llmEnvC9 : LLMEnv :=
  { apiKey := some "key",
    tabsResult := .inl ["Pipeline", "Approved", "Rejected"],
    tabData := fun t =>
      if t = "Approved" then .inr "Auth failed. Check your service account credentials."
      else .inl ⟨["Company"], [["Acme Corp"]]⟩,
    doc := none,
    response := fun _ => .ok [.text "x"],
    jsonParse := fun _ => .ok ⟨"Found 1 issue", [], none⟩ }

/-- Witness for C9: with the middle of three tabs failing, the prompt
carries exactly the first and third tabs' sections and the run returns
the parsed result. -/
theorem analyzeData_partial_failure_tolerance_witness :
    sheetDataParts llmEnvC9 =
      [sectionFor "Pipeline" ⟨["Company"], [["Acme Corp"]]⟩,
       sectionFor "Rejected" ⟨["Company"], [["Acme Corp"]]⟩] ∧
    analyzeData llmEnvC9 = ⟨"Found 1 issue", [], none⟩ := by
  have h := analyzeData_partial_failure_tolerance llmEnvC9
    "Pipeline" "Approved" "Rejected" "Auth failed. Check your service account credentials."
    ⟨["Company"], [["Acme Corp"]]⟩ ⟨["Company"], [["Acme Corp"]]⟩
    rfl (by decide) (by decide) (by decide)
  exact ⟨h.1, h.2.2 "key" "x" ⟨"Found 1 issue", [], none⟩ rfl rfl rfl⟩

end Dashboard
